import Mathlib

/-!
Verification development for the application lifecycle and progress core of
the `la6lazy` portfolio front end.

The definitions below are shallow embeddings of the TypeScript sources:

* `ProgressController` — `src/core/progress-controller.ts`
  (`setTargetProgress`, `setProgressImmediate`, `getCurrentProgress`,
  `startProgressSmoothing`, `dispose`), with the animation-frame scheduler
  (`requestAnimationFrame` / `cancelAnimationFrame`) modelled explicitly as a
  list of pending callback ids.
* `AppState` / `AppPhase` — `src/core/app-state.ts`.
* `playCRTPowerOn`, `waitForSceneReady`, `startSceneLoading`'s milestone
  trace — `src/core/app-controller.ts` (AppController variant).
* `workerSetModeFlag` / `mainSetModeFlag` — `src/preloader/crt-bootstrap.ts`.
* `handleMessage` — `src/preloader/crt-worker.ts` (`self.onmessage`).
* `GLPreloader` — `src/preloader/shader-preload.ts` (`createGLPreloader`).

JavaScript numbers are modelled as rationals; the smoothing constants are
`K = 0.18 = 9/50`, `epsilon = 0.002 = 1/500`, threshold `0.995 = 199/200`.
-/

namespace La6Lazy

/-- `Math.min(1, Math.max(0, value))`, the clamp used by
`setTargetProgress`, `setProgressImmediate`, `setProgress` and
`setScanlinePhase`. -/
def clamp01 (v : ℚ) : ℚ := min 1 (max 0 v)

/-- The fixed smoothing factor `0.18` of `startProgressSmoothing`. -/
def smoothK : ℚ := 18 / 100

/-- The convergence epsilon `0.002` of `startProgressSmoothing`. -/
def progressEps : ℚ := 2 / 1000

/-- One interpolation assignment of the smoothing tick:
`visualProgress += (targetProgress - visualProgress) * 0.18`. -/
def smoothStep (target visual : ℚ) : ℚ := visual + (target - visual) * smoothK

/-- The browser's animation-frame scheduler, as seen by one client:
`nextId` is the id the next `requestAnimationFrame` call will return and
`pending` lists the ids of scheduled callbacks that have neither fired nor
been cancelled. -/
structure RafScheduler where
  nextId : ℕ
  pending : List ℕ
deriving Repr, DecidableEq

/-- `requestAnimationFrame(cb)`: returns a fresh id and schedules it. -/
def RafScheduler.request (s : RafScheduler) : ℕ × RafScheduler :=
  (s.nextId, ⟨s.nextId + 1, s.pending ++ [s.nextId]⟩)

/-- `cancelAnimationFrame(id)`: removes the id from the pending set. -/
def RafScheduler.cancel (s : RafScheduler) (id : ℕ) : RafScheduler :=
  ⟨s.nextId, s.pending.filter (fun x => x ≠ id)⟩

/-- State of `ProgressController` (`src/core/progress-controller.ts`):
`visualProgress`, `targetProgress`, the stored `rafId`, plus the scheduler
it talks to. -/
structure ProgressController where
  visualProgress : ℚ
  targetProgress : ℚ
  rafId : Option ℕ
  sched : RafScheduler
deriving Repr, DecidableEq

/-- A freshly constructed controller: `visualProgress = 0`,
`targetProgress = 0`, `rafId = null`, nothing scheduled. -/
def ProgressController.mk0 : ProgressController :=
  ⟨0, 0, none, ⟨0, []⟩⟩

/-- `getCurrentProgress()`: returns the current visual value. -/
def ProgressController.getCurrentProgress (s : ProgressController) : ℚ :=
  s.visualProgress

/-- `startProgressSmoothing()`: cancels any previously stored `rafId`,
then schedules the tick and stores the new id. -/
def ProgressController.startProgressSmoothing (s : ProgressController) :
    ProgressController :=
  let sched1 :=
    match s.rafId with
    | some id => s.sched.cancel id
    | none => s.sched
  let r := sched1.request
  { s with rafId := some r.1, sched := r.2 }

/-- `setTargetProgress(value)`: clamps to `[0,1]`, stores the target, and
(re)starts the smoothing loop. -/
def ProgressController.setTargetProgress (s : ProgressController) (value : ℚ) :
    ProgressController :=
  ProgressController.startProgressSmoothing
    { s with targetProgress := clamp01 value }

/-- `setProgressImmediate(value)`: sets both visual and target to the
clamped value, without touching the smoothing loop. -/
def ProgressController.setProgressImmediate (s : ProgressController) (value : ℚ) :
    ProgressController :=
  { s with visualProgress := clamp01 value, targetProgress := clamp01 value }

/-- Body of the smoothing `tick` callback, run once the scheduler has fired
the stored callback: one interpolation assignment, then either reschedule
(when still more than `0.002` away from the target) or snap the visual
value exactly to the target and clear `rafId`. -/
def ProgressController.tickBody (s : ProgressController) : ProgressController :=
  let v := smoothStep s.targetProgress s.visualProgress
  if progressEps < |s.targetProgress - v| then
    let r := s.sched.request
    { s with visualProgress := v, rafId := some r.1, sched := r.2 }
  else
    { s with visualProgress := s.targetProgress, rafId := none }

/-- One animation frame from the controller's point of view: if a tick is
scheduled, the scheduler consumes its id and runs the tick body; otherwise
nothing happens. -/
def ProgressController.fireFrame (s : ProgressController) : ProgressController :=
  match s.rafId with
  | none => s
  | some id => ProgressController.tickBody { s with sched := s.sched.cancel id }

/-- `dispose()`: cancels any in-flight tick. -/
def ProgressController.dispose (s : ProgressController) : ProgressController :=
  match s.rafId with
  | some id => { s with rafId := none, sched := s.sched.cancel id }
  | none => s

/-- External stimuli of the controller: a `setTargetProgress` call, or one
animation frame. -/
inductive PCEvent
  | setTarget (v : ℚ)
  | frame
deriving Repr, DecidableEq

/-- Apply one stimulus. -/
def ProgressController.applyEvent (s : ProgressController) : PCEvent → ProgressController
  | .setTarget v => s.setTargetProgress v
  | .frame => s.fireFrame

/-- Run a sequence of stimuli. -/
def ProgressController.run (s : ProgressController) (evs : List PCEvent) :
    ProgressController :=
  evs.foldl ProgressController.applyEvent s

/-- Reachability invariant of the controller: the scheduler's pending list
is exactly the stored `rafId` (so at most one driver is ever alive), both
progress fields stay in `[0,1]`, and whenever no tick is scheduled the
visual value equals the target. -/
structure ProgressController.Inv (s : ProgressController) : Prop where
  pending_eq : s.sched.pending = s.rafId.toList
  target_nonneg : 0 ≤ s.targetProgress
  target_le : s.targetProgress ≤ 1
  visual_nonneg : 0 ≤ s.visualProgress
  visual_le : s.visualProgress ≤ 1
  halted_eq : s.rafId = none → s.visualProgress = s.targetProgress

/-- Distance between target and visual value. -/
def ProgressController.dist (s : ProgressController) : ℚ :=
  |s.targetProgress - s.visualProgress|

/-- The application phases of `src/core/app-state.ts` (`enum AppPhase`).
Spec names: `shell` = `HTML_CSS`, `boot` = `CRT_POWER_ON`, `idle` = `IDLE`,
`loading` = `SCANLINE_LOADER`, `active` = `SCENE`. -/
inductive AppPhase
  | HTML_CSS
  | CRT_POWER_ON
  | IDLE
  | SCANLINE_LOADER
  | SCENE
deriving Repr, DecidableEq

/-- State of `AppState` (`src/core/app-state.ts`): the current phase and the
registered listeners, kept in registration order. Listeners are identified
by values of an arbitrary type `L`. -/
structure AppState (L : Type) where
  currentPhase : AppPhase
  listeners : List L
deriving Repr

/-- `setPhase(phase)`: if the phase differs from the current one, update it
and call every listener with the new phase (`forEach`, registration order);
otherwise do nothing. Returns the new state together with the list of
listener invocations performed, in order. -/
def AppState.setPhase {L : Type} (s : AppState L) (phase : AppPhase) :
    AppState L × List (L × AppPhase) :=
  if s.currentPhase ≠ phase then
    ({ s with currentPhase := phase }, s.listeners.map (fun l => (l, phase)))
  else
    (s, [])

/-- `onPhaseChange(listener)`: appends to the listeners list. -/
def AppState.onPhaseChange {L : Type} (s : AppState L) (l : L) : AppState L :=
  { s with listeners := s.listeners ++ [l] }

/-- Observable calls performed by the CRT power-on animation of
`src/core/app-controller.ts`: calls on the CRT surface handle and on the
app state. -/
inductive CRTCall
  | setMode (mode : String)
  | setProgress (value : ℚ)
  | setPhase (phase : AppPhase)
deriving Repr, DecidableEq

/-- The animation-frame `tick` loop inside `playCRTPowerOn` of
`src/core/app-controller.ts`: each tick increments `frame`, calls
`setProgress(Math.min(1, frame / frames))`, and either schedules the next
tick (`frame < frames`) or sets the phase to `IDLE`. `fuel` bounds the
number of ticks; `fuel = frames - frame` is enough. -/
def bootTick (frames : ℕ) : ℕ → ℕ → List CRTCall
  | 0, _ => []
  | fuel + 1, frame =>
    CRTCall.setProgress (min 1 ((frame + 1 : ℚ) / (frames : ℚ))) ::
      (if frame + 1 < frames then
        bootTick frames fuel (frame + 1)
      else
        [CRTCall.setPhase AppPhase.IDLE])

/-- `playCRTPowerOn(frames)` of `src/core/app-controller.ts` (with a live
CRT handle): set phase `CRT_POWER_ON`, `setMode('boot')`, `setProgress(0)`,
then run the frame loop from `frame = 0`. -/
def playCRTPowerOn (frames : ℕ) : List CRTCall :=
  CRTCall.setPhase AppPhase.CRT_POWER_ON :: CRTCall.setMode "boot" ::
    CRTCall.setProgress 0 :: bootTick frames frames 0

/-- Worker-path `setMode` of `createCRTLoader`
(`src/preloader/crt-bootstrap.ts`): the numeric flag posted to the worker
is `mode === 'scanline' ? 1 : 0`. -/
def workerSetModeFlag (mode : String) : ℕ :=
  if mode = "scanline" then 1 else 0

/-- Main-thread-path `setMode` of `createCRTLoader`
(`src/preloader/crt-bootstrap.ts`): the numeric flag passed to the GL
preloader is `mode === 'scanline' ? 1 : 0`. -/
def mainSetModeFlag (mode : String) : ℕ :=
  if mode = "scanline" then 1 else 0

/-- Mutable state of the GL renderer created by `createGLPreloader`
(`src/preloader/shader-preload.ts`; the variant with `destroy` has the same
setter bodies): the stored `progress`, `scanlinePhase` and `mode` values
and the `stopped` flag. -/
structure GLPreloader where
  progress : ℚ
  scanlinePhase : ℚ
  mode : ℚ
  stopped : Bool
deriving Repr, DecidableEq

/-- Initial renderer state: `progress = 0`, `scanlinePhase = 0`,
`mode = 0`, running. -/
def GLPreloader.mk0 : GLPreloader := ⟨0, 0, 0, false⟩

/-- `setProgress(value)`: stores `Math.min(1, Math.max(0, value))`. -/
def GLPreloader.setProgress (s : GLPreloader) (value : ℚ) : GLPreloader :=
  { s with progress := clamp01 value }

/-- `setScanlinePhase(value)`: stores `Math.min(1, Math.max(0, value))`. -/
def GLPreloader.setScanlinePhase (s : GLPreloader) (value : ℚ) : GLPreloader :=
  { s with scanlinePhase := clamp01 value }

/-- `setMode(value)`: stores the argument as-is, with no clamp. -/
def GLPreloader.setMode (s : GLPreloader) (value : ℚ) : GLPreloader :=
  { s with mode := value }

/-- `stop()`: sets the stopped flag. -/
def GLPreloader.stop (s : GLPreloader) : GLPreloader :=
  { s with stopped := true }

/-- The uniform values written by one iteration of the renderer's `frame()`
draw loop: `uProgress`, `uScanlinePhase` and `uMode` are written from the
stored state. -/
structure Uniforms where
  uProgress : ℚ
  uScanlinePhase : ℚ
  uMode : ℚ
deriving Repr, DecidableEq

/-- The uniforms `frame()` writes from a given renderer state. -/
def GLPreloader.frameUniforms (s : GLPreloader) : Uniforms :=
  ⟨s.progress, s.scanlinePhase, s.mode⟩

/-- One call on the renderer's public interface. -/
inductive GLCall
  | setProgress (value : ℚ)
  | setScanlinePhase (value : ℚ)
  | setMode (value : ℚ)
  | stop
deriving Repr, DecidableEq

/-- Apply one interface call. -/
def GLPreloader.applyCall (s : GLPreloader) : GLCall → GLPreloader
  | .setProgress v => s.setProgress v
  | .setScanlinePhase v => s.setScanlinePhase v
  | .setMode v => s.setMode v
  | .stop => s.stop

/-- Run a sequence of interface calls. -/
def GLPreloader.runCalls (s : GLPreloader) (cs : List GLCall) : GLPreloader :=
  cs.foldl GLPreloader.applyCall s

/-- Messages of the worker protocol (`src/preloader/crt-worker.ts`):
`init` carries the transferred canvas dimensions and device pixel ratio,
the control messages carry one numeric value, `stop` carries nothing. -/
inductive WorkerMsg
  | init (width height : ℕ) (dpr : ℚ)
  | progress (value : ℚ)
  | scanlinePhase (value : ℚ)
  | mode (value : ℚ)
  | stop
deriving Repr, DecidableEq

/-- State of the worker context: the `preloader` reference (null until
`init`), the transferred canvas's pixel dimensions, and whether
`self.close()` has run (a closed worker dispatches no further messages). -/
structure WorkerState where
  preloader : Option GLPreloader
  canvasWidth : ℚ
  canvasHeight : ℚ
  closed : Bool
deriving Repr, DecidableEq

/-- A freshly spawned worker: `preloader = null`, not closed. -/
def WorkerState.mk0 : WorkerState := ⟨none, 0, 0, false⟩

/-- The `self.onmessage` handler of `src/preloader/crt-worker.ts`:
`init` sizes the canvas (`dimension * dpr`) and constructs the renderer;
`progress`/`scanlinePhase`/`mode` forward to the renderer through the
optional-chaining call `preloader?.`; `stop` forwards to the renderer and
then calls `self.close()` unconditionally. -/
def handleMessage (s : WorkerState) (m : WorkerMsg) : WorkerState :=
  if s.closed then s
  else
    match m with
    | .init w h dpr =>
      { s with
        canvasWidth := (w : ℚ) * dpr,
        canvasHeight := (h : ℚ) * dpr,
        preloader := some GLPreloader.mk0 }
    | .progress v => { s with preloader := s.preloader.map (·.setProgress v) }
    | .scanlinePhase v =>
      { s with preloader := s.preloader.map (·.setScanlinePhase v) }
    | .mode v => { s with preloader := s.preloader.map (·.setMode v) }
    | .stop =>
      { s with preloader := s.preloader.map GLPreloader.stop, closed := true }

/-- The control messages whose pre-init handling is a pure no-op. -/
def WorkerMsg.isRendererForward : WorkerMsg → Bool
  | .progress _ => true
  | .scanlinePhase _ => true
  | .mode _ => true
  | _ => false

/-- The readiness threshold `0.995` of `waitForSceneReady`
(`src/core/app-controller.ts`). -/
def readyThreshold : ℚ := 199 / 200

/-- The `checkProgress` polling loop of `waitForSceneReady`
(`src/core/app-controller.ts`): at each animation-frame tick `n` it reads
the controller's current visual progress (`visuals n`); if it exceeds
`0.995` it calls `finish()`, hides the CRT canvas and sets the phase to
`SCENE` (modelled as returning `some n`, the tick at which that happens),
otherwise it schedules itself again. `fuel` bounds the simulated ticks;
`none` means it was still polling after `fuel` ticks. -/
def waitForSceneReady (visuals : ℕ → ℚ) : ℕ → ℕ → Option ℕ
  | 0, _ => none
  | fuel + 1, n =>
    if readyThreshold < visuals n then some n
    else waitForSceneReady visuals fuel (n + 1)

/-- The `onUnlock` callback of `initUnlocker`
(`src/core/app-controller.ts`): sets the ProgressController's target to 1
(and then starts the `waitForSceneReady` polling loop). -/
def onUnlock (s : ProgressController) : ProgressController :=
  s.setTargetProgress 1

theorem clamp01_nonneg (v : ℚ) : 0 ≤ clamp01 v := by
  simp only [clamp01, le_min_iff, le_max_iff]
  exact ⟨zero_le_one, Or.inl le_rfl⟩

theorem clamp01_le_one (v : ℚ) : clamp01 v ≤ 1 := min_le_left _ _

theorem clamp01_of_mem (v : ℚ) (h0 : 0 ≤ v) (h1 : v ≤ 1) : clamp01 v = v := by
  simp [clamp01, max_eq_right h0, min_eq_right h1]

theorem smoothStep_between_left {target visual : ℚ} (h : visual ≤ target) :
    visual ≤ smoothStep target visual ∧ smoothStep target visual ≤ target := by
  unfold smoothStep smoothK
  constructor <;> nlinarith

theorem smoothStep_between_right {target visual : ℚ} (h : target ≤ visual) :
    target ≤ smoothStep target visual ∧ smoothStep target visual ≤ visual := by
  unfold smoothStep smoothK
  constructor <;> nlinarith

theorem smoothStep_dist (target visual : ℚ) :
    |target - smoothStep target visual| = 41 / 50 * |target - visual| := by
  have h : target - smoothStep target visual = 41 / 50 * (target - visual) := by
    unfold smoothStep smoothK; ring
  rw [h, abs_mul]
  norm_num

theorem mk0_inv : ProgressController.Inv ProgressController.mk0 := by
  constructor <;> simp [ProgressController.mk0]

theorem inv_setTargetProgress {s : ProgressController} (h : s.Inv) (v : ℚ) :
    (s.setTargetProgress v).Inv := by
  have hp := h.pending_eq
  constructor
  · cases hid : s.rafId with
    | none =>
      simp [ProgressController.setTargetProgress,
        ProgressController.startProgressSmoothing, hid, RafScheduler.request]
      simp [hid] at hp
      simp [hp]
    | some id =>
      simp [ProgressController.setTargetProgress,
        ProgressController.startProgressSmoothing, hid, RafScheduler.request,
        RafScheduler.cancel]
      simp [hid] at hp
      simp [hp]
  · exact clamp01_nonneg v
  · exact clamp01_le_one v
  · simpa [ProgressController.setTargetProgress,
      ProgressController.startProgressSmoothing] using h.visual_nonneg
  · simpa [ProgressController.setTargetProgress,
      ProgressController.startProgressSmoothing] using h.visual_le
  · intro hnone
    exfalso
    cases hid : s.rafId <;>
      simp [ProgressController.setTargetProgress,
        ProgressController.startProgressSmoothing, hid] at hnone

theorem inv_fireFrame {s : ProgressController} (h : s.Inv) :
    (s.fireFrame).Inv := by
  cases hid : s.rafId with
  | none => simpa [ProgressController.fireFrame, hid] using h
  | some id =>
    have hp := h.pending_eq
    rw [hid] at hp
    have hv : 0 ≤ smoothStep s.targetProgress s.visualProgress ∧
        smoothStep s.targetProgress s.visualProgress ≤ 1 := by
      rcases le_total s.visualProgress s.targetProgress with hle | hle
      · obtain ⟨h1, h2⟩ := smoothStep_between_left hle
        exact ⟨le_trans h.visual_nonneg h1, le_trans h2 h.target_le⟩
      · obtain ⟨h1, h2⟩ := smoothStep_between_right hle
        exact ⟨le_trans h.target_nonneg h1, le_trans h2 h.visual_le⟩
    unfold ProgressController.fireFrame ProgressController.tickBody
    rw [hid]
    simp only
    by_cases hc :
        progressEps < |s.targetProgress - smoothStep s.targetProgress s.visualProgress|
    · rw [if_pos hc]
      constructor
      · simp [RafScheduler.request, RafScheduler.cancel, hp]
      · exact h.target_nonneg
      · exact h.target_le
      · exact hv.1
      · exact hv.2
      · intro hnone; exact absurd hnone (by simp)
    · rw [if_neg hc]
      constructor
      · simp [RafScheduler.cancel, hp]
      · exact h.target_nonneg
      · exact h.target_le
      · exact h.target_nonneg
      · exact h.target_le
      · intro _; rfl

theorem inv_applyEvent {s : ProgressController} (h : s.Inv) (e : PCEvent) :
    (s.applyEvent e).Inv := by
  cases e with
  | setTarget v => exact inv_setTargetProgress h v
  | frame => exact inv_fireFrame h

theorem inv_run {s : ProgressController} (h : s.Inv) (evs : List PCEvent) :
    (s.run evs).Inv := by
  induction evs generalizing s with
  | nil => exact h
  | cons e rest ih =>
    exact ih (inv_applyEvent h e)

theorem dist_le_one {s : ProgressController} (h : s.Inv) : s.dist ≤ 1 := by
  have h1 := h.target_nonneg
  have h2 := h.target_le
  have h3 := h.visual_nonneg
  have h4 := h.visual_le
  rw [ProgressController.dist, abs_le]
  constructor <;> linarith

theorem fireFrame_none {s : ProgressController} (h : s.rafId = none) :
    s.fireFrame = s := by
  simp [ProgressController.fireFrame, h]

theorem fireFrame_target {s : ProgressController} :
    (s.fireFrame).targetProgress = s.targetProgress := by
  unfold ProgressController.fireFrame ProgressController.tickBody
  cases s.rafId <;> simp only <;> try rfl
  split <;> rfl

theorem fireFrame_dist_some {s : ProgressController} {id : ℕ}
    (hid : s.rafId = some id) (hc : progressEps < 41 / 50 * s.dist) :
    (s.fireFrame).dist = 41 / 50 * s.dist ∧ (s.fireFrame).rafId.isSome := by
  have hd : |s.targetProgress - smoothStep s.targetProgress s.visualProgress| =
      41 / 50 * s.dist := smoothStep_dist s.targetProgress s.visualProgress
  unfold ProgressController.fireFrame ProgressController.tickBody
  rw [hid]
  simp only
  rw [if_pos (by rw [hd]; exact hc)]
  refine ⟨?_, rfl⟩
  simp [ProgressController.dist, hd]

theorem fireFrame_halt_some {s : ProgressController} {id : ℕ}
    (hid : s.rafId = some id) (hc : ¬ progressEps < 41 / 50 * s.dist) :
    (s.fireFrame).rafId = none ∧
    (s.fireFrame).visualProgress = (s.fireFrame).targetProgress := by
  have hd : |s.targetProgress - smoothStep s.targetProgress s.visualProgress| =
      41 / 50 * s.dist := smoothStep_dist s.targetProgress s.visualProgress
  unfold ProgressController.fireFrame ProgressController.tickBody
  rw [hid]
  simp only
  rw [if_neg (by rw [hd]; exact hc)]
  exact ⟨rfl, rfl⟩

theorem inv_iterate {s : ProgressController} (h : s.Inv) (n : ℕ) :
    (ProgressController.fireFrame^[n] s).Inv := by
  induction n with
  | zero => exact h
  | succ n ih =>
    rw [Function.iterate_succ_apply']
    exact inv_fireFrame ih

theorem running_dist (n : ℕ) (s : ProgressController)
    (h : (ProgressController.fireFrame^[n] s).rafId.isSome) :
    (ProgressController.fireFrame^[n] s).dist = (41 / 50) ^ n * s.dist := by
  induction n with
  | zero => simp
  | succ n ih =>
    rw [Function.iterate_succ_apply'] at h ⊢
    set t := ProgressController.fireFrame^[n] s with ht
    cases hid : t.rafId with
    | none =>
      rw [fireFrame_none hid] at h
      rw [hid] at h
      simp at h
    | some id =>
      have hdt : t.dist = (41 / 50) ^ n * s.dist := ih (by rw [hid]; rfl)
      by_cases hc : progressEps < 41 / 50 * t.dist
      · obtain ⟨hd, _⟩ := fireFrame_dist_some hid hc
        rw [hd, hdt]
        ring
      · obtain ⟨hnone, _⟩ := fireFrame_halt_some hid hc
        rw [hnone] at h
        simp at h

theorem pow_bound : ((41 : ℚ) / 50) ^ 32 ≤ progressEps := by
  rw [progressEps]
  norm_num

theorem converged_at_32 {s : ProgressController} (h : s.Inv) :
    (ProgressController.fireFrame^[32] s).rafId = none ∧
    (ProgressController.fireFrame^[32] s).visualProgress =
      (ProgressController.fireFrame^[32] s).targetProgress ∧
    (ProgressController.fireFrame^[32] s).sched.pending = [] := by
  have hinv32 := inv_iterate h 32
  have hmain : (ProgressController.fireFrame^[32] s).rafId = none := by
    have h32 : (32 : ℕ) = 31 + 1 := rfl
    rw [h32, Function.iterate_succ_apply']
    set t := ProgressController.fireFrame^[31] s with ht
    cases hid : t.rafId with
    | none => rw [fireFrame_none hid]; exact hid
    | some id =>
      have hdt : t.dist = (41 / 50) ^ 31 * s.dist := running_dist 31 s (by rw [hid]; rfl)
      have hds : s.dist ≤ 1 := dist_le_one h
      have hd0 : 0 ≤ s.dist := abs_nonneg _
      have hc : ¬ progressEps < 41 / 50 * t.dist := by
        rw [not_lt, hdt]
        calc 41 / 50 * ((41 / 50) ^ 31 * s.dist) = (41 / 50) ^ 32 * s.dist := by ring
        _ ≤ (41 / 50) ^ 32 * 1 := by
            apply mul_le_mul_of_nonneg_left hds
            positivity
        _ = (41 / 50) ^ 32 := mul_one _
        _ ≤ progressEps := pow_bound
      exact (fireFrame_halt_some hid hc).1
  refine ⟨hmain, hinv32.halted_eq hmain, ?_⟩
  rw [hinv32.pending_eq, hmain]
  rfl

/-- C3: for any sequence of `setTargetProgress` calls with values in `[0,1]`,
within at most 32 subsequent smoothing ticks the visual value satisfies
`|visual - target| <= 0.002`; at that point the visual value equals the
target exactly and the loop has halted: `rafId` is null and no
animation-frame callback remains scheduled. -/
theorem C3_progress_smoothing_converges_bounded
    (vs : List ℚ) (hvs : ∀ v ∈ vs, 0 ≤ v ∧ v ≤ 1) :
    ∃ n ≤ 32,
      (ProgressController.fireFrame^[n]
        (ProgressController.mk0.run (vs.map PCEvent.setTarget))).visualProgress =
      (ProgressController.fireFrame^[n]
        (ProgressController.mk0.run (vs.map PCEvent.setTarget))).targetProgress ∧
      |(ProgressController.fireFrame^[n]
          (ProgressController.mk0.run (vs.map PCEvent.setTarget))).targetProgress -
        (ProgressController.fireFrame^[n]
          (ProgressController.mk0.run (vs.map PCEvent.setTarget))).visualProgress| ≤
        progressEps ∧
      (ProgressController.fireFrame^[n]
        (ProgressController.mk0.run (vs.map PCEvent.setTarget))).rafId = none ∧
      (ProgressController.fireFrame^[n]
        (ProgressController.mk0.run (vs.map PCEvent.setTarget))).sched.pending = [] := by
  have hinv := inv_run mk0_inv (vs.map PCEvent.setTarget)
  obtain ⟨h1, h2, h3⟩ := converged_at_32 hinv
  refine ⟨32, le_rfl, h2, ?_, h1, h3⟩
  rw [h2, sub_self, abs_zero]
  rw [progressEps]
  norm_num

/-- Witness for C3 at the concrete call sequence `[0.5]`. -/
theorem C3_progress_smoothing_converges_bounded_witness :
    (∀ v ∈ [(1 : ℚ) / 2], 0 ≤ v ∧ v ≤ 1) ∧
    ∃ n ≤ 32,
      (ProgressController.fireFrame^[n]
        (ProgressController.mk0.run ([(1 : ℚ) / 2].map PCEvent.setTarget))).visualProgress =
      (ProgressController.fireFrame^[n]
        (ProgressController.mk0.run ([(1 : ℚ) / 2].map PCEvent.setTarget))).targetProgress ∧
      |(ProgressController.fireFrame^[n]
          (ProgressController.mk0.run ([(1 : ℚ) / 2].map PCEvent.setTarget))).targetProgress -
        (ProgressController.fireFrame^[n]
          (ProgressController.mk0.run ([(1 : ℚ) / 2].map PCEvent.setTarget))).visualProgress| ≤
        progressEps ∧
      (ProgressController.fireFrame^[n]
        (ProgressController.mk0.run ([(1 : ℚ) / 2].map PCEvent.setTarget))).rafId = none ∧
      (ProgressController.fireFrame^[n]
        (ProgressController.mk0.run ([(1 : ℚ) / 2].map PCEvent.setTarget))).sched.pending = [] :=
  ⟨by intro v hv; simp at hv; rw [hv]; norm_num,
    C3_progress_smoothing_converges_bounded [(1 : ℚ) / 2]
      (by intro v hv; simp at hv; rw [hv]; norm_num)⟩

/-- C4: for all target and visual values in `[0,1]`, the smoothing step
`visual += (target - visual) * 0.18` strictly reduces `|target - visual|`
whenever it is nonzero, and never overshoots: the new visual value stays
between the old visual value and the target. -/
theorem C4_smoothing_step_contracts_never_overshoots
    (target visual : ℚ) (ht0 : 0 ≤ target) (ht1 : target ≤ 1)
    (hv0 : 0 ≤ visual) (hv1 : visual ≤ 1) :
    (target - visual ≠ 0 →
      |target - smoothStep target visual| < |target - visual|) ∧
    (visual ≤ target →
      visual ≤ smoothStep target visual ∧ smoothStep target visual ≤ target) ∧
    (target ≤ visual →
      target ≤ smoothStep target visual ∧ smoothStep target visual ≤ visual) := by
  refine ⟨?_, fun h => smoothStep_between_left h, fun h => smoothStep_between_right h⟩
  intro hne
  rw [smoothStep_dist]
  have hpos : 0 < |target - visual| := abs_pos.mpr hne
  linarith

/-- Witness for C4 at `target = 1`, `visual = 0`. -/
theorem C4_smoothing_step_contracts_never_overshoots_witness :
    |(1 : ℚ) - smoothStep 1 0| < |(1 : ℚ) - 0| ∧
    (0 : ℚ) ≤ smoothStep 1 0 ∧ smoothStep 1 0 ≤ 1 :=
  ⟨(C4_smoothing_step_contracts_never_overshoots 1 0 (by norm_num) (by norm_num)
      (by norm_num) (by norm_num)).1 (by norm_num),
    (C4_smoothing_step_contracts_never_overshoots 1 0 (by norm_num) (by norm_num)
      (by norm_num) (by norm_num)).2.1 (by norm_num)⟩

theorem setTargetProgress_rafId {s : ProgressController} (v : ℚ) :
    (s.setTargetProgress v).rafId =
      some (s.setTargetProgress v).sched.nextId.pred := by
  cases hid : s.rafId <;>
    simp [ProgressController.setTargetProgress,
      ProgressController.startProgressSmoothing, hid, RafScheduler.request,
      RafScheduler.cancel]

/-- C9: two back-to-back `setTargetProgress` calls with no frames in
between leave exactly one pending animation-frame callback, and over every
stimulus sequence at most one callback is pending at any time. -/
theorem C9_single_smoothing_driver :
    (∀ (evs : List PCEvent) (v1 v2 : ℚ),
      ((((ProgressController.mk0.run evs).setTargetProgress v1).setTargetProgress
        v2)).sched.pending.length = 1) ∧
    ∀ (evs : List PCEvent),
      (ProgressController.mk0.run evs).sched.pending.length ≤ 1 := by
  constructor
  · intro evs v1 v2
    have hinv : (((ProgressController.mk0.run evs).setTargetProgress
        v1).setTargetProgress v2).Inv :=
      inv_setTargetProgress (inv_setTargetProgress (inv_run mk0_inv evs) v1) v2
    rw [hinv.pending_eq, setTargetProgress_rafId]
    rfl
  · intro evs
    have hinv := inv_run mk0_inv evs
    rw [hinv.pending_eq]
    cases (ProgressController.mk0.run evs).rafId <;> simp

/-- C8: `setPhase` with the current phase notifies nobody and leaves the
state unchanged; `setPhase` with a different phase updates the current
phase, leaves the listener list unchanged, and the performed invocations
are exactly the registered listeners in registration order, each paired
with the new phase (so each registration is notified exactly once). -/
theorem C8_setPhase_noop_or_notify_in_order
    {L : Type} (s : AppState L) (p : AppPhase) :
    (p = s.currentPhase → s.setPhase p = (s, [])) ∧
    (p ≠ s.currentPhase →
      (s.setPhase p).1.currentPhase = p ∧
      (s.setPhase p).1.listeners = s.listeners ∧
      ((s.setPhase p).2.map Prod.fst) = s.listeners ∧
      ∀ pr ∈ (s.setPhase p).2, pr.2 = p) := by
  constructor
  · intro h
    simp [AppState.setPhase, h]
  · intro h
    have h' : s.currentPhase ≠ p := fun hc => h hc.symm
    refine ⟨?_, ?_, ?_, ?_⟩
    · simp [AppState.setPhase, h']
    · simp [AppState.setPhase, h']
    · simp only [AppState.setPhase, if_pos h', List.map_map]
      exact List.map_id _
    · intro pr hpr
      simp [AppState.setPhase, h'] at hpr
      obtain ⟨l, _, rfl⟩ := hpr
      rfl

/-- Witness for C8: a state in phase `IDLE` with two listeners, probed with
`setPhase SCENE` (different) and `setPhase IDLE` (same). -/
theorem C8_setPhase_noop_or_notify_in_order_witness :
    ((AppState.mk AppPhase.IDLE [0, 1]).setPhase AppPhase.IDLE =
      (AppState.mk AppPhase.IDLE [0, 1], ([] : List (ℕ × AppPhase)))) ∧
    ((AppState.mk AppPhase.IDLE [0, 1]).setPhase AppPhase.SCENE).1.currentPhase =
      AppPhase.SCENE ∧
    (((AppState.mk AppPhase.IDLE [0, 1]).setPhase AppPhase.SCENE).2.map Prod.fst) =
      [0, 1] :=
  ⟨(C8_setPhase_noop_or_notify_in_order (AppState.mk AppPhase.IDLE [0, 1])
      AppPhase.IDLE).1 rfl,
    ((C8_setPhase_noop_or_notify_in_order (AppState.mk AppPhase.IDLE [0, 1])
      AppPhase.SCENE).2 (by decide)).1,
    ((C8_setPhase_noop_or_notify_in_order (AppState.mk AppPhase.IDLE [0, 1])
      AppPhase.SCENE).2 (by decide)).2.2.1⟩

/-- C5: with `frames = 20`, the boot animation sets the phase to
`CRT_POWER_ON` before the first tick, then each of the 20 ticks performs
exactly one `setProgress` call, with values `1/20, 2/20, …, 20/20 = 1`,
and the phase is set to `IDLE` exactly after the 20th tick's `setProgress`;
the per-tick progress values are strictly increasing. -/
theorem C5_boot_animation_20_frames :
    playCRTPowerOn 20 =
      CRTCall.setPhase AppPhase.CRT_POWER_ON :: CRTCall.setMode "boot" ::
        CRTCall.setProgress 0 ::
        (((List.range 20).map
            (fun i => CRTCall.setProgress ((i + 1 : ℚ) / 20))) ++
          [CRTCall.setPhase AppPhase.IDLE]) ∧
    (∀ i j : ℕ, i < j → j < 20 → ((i : ℚ) + 1) / 20 < ((j : ℚ) + 1) / 20) ∧
    ((19 : ℚ) + 1) / 20 = 1 := by
  refine ⟨?_, ?_, by norm_num⟩
  · show playCRTPowerOn 20 = _
    norm_num [playCRTPowerOn, bootTick, List.range_succ, min_eq_right]
  · intro i j hij hj
    have h20 : (0 : ℚ) < 20 := by norm_num
    rw [div_lt_div_iff h20 h20]
    have hq : (i : ℚ) < (j : ℚ) := by exact_mod_cast hij
    nlinarith

/-- Counterexample for C2: the claim says every string other than
`"boot"` maps to flag 1, but `setMode("xyz")` yields 0 on both paths. -/
theorem C2_setMode_counterexample :
    workerSetModeFlag "xyz" = 0 ∧ mainSetModeFlag "xyz" = 0 ∧ (0 : ℕ) ≠ 1 := by
  refine ⟨?_, ?_, by decide⟩ <;> rfl

/-- C2 (amended): on both the worker path and the main-thread path,
`setMode` maps the string `"scanline"` to numeric flag 1 and every other
string (including `"boot"`, `""`, `"xyz"`) to numeric flag 0. -/
theorem C2_setMode_mapping_amended :
    workerSetModeFlag "scanline" = 1 ∧ mainSetModeFlag "scanline" = 1 ∧
    ∀ s : String, s ≠ "scanline" →
      workerSetModeFlag s = 0 ∧ mainSetModeFlag s = 0 := by
  refine ⟨rfl, rfl, ?_⟩
  intro s hs
  constructor <;> simp [workerSetModeFlag, mainSetModeFlag, hs]

/-- Witness for C2 (amended) at the concrete string `"boot"`. -/
theorem C2_setMode_mapping_amended_witness :
    workerSetModeFlag "boot" = 0 ∧ mainSetModeFlag "boot" = 0 :=
  C2_setMode_mapping_amended.2.2 "boot" (by decide)

theorem runCalls_bounds {s : GLPreloader}
    (h : 0 ≤ s.progress ∧ s.progress ≤ 1 ∧
      0 ≤ s.scanlinePhase ∧ s.scanlinePhase ≤ 1) (cs : List GLCall) :
    0 ≤ (s.runCalls cs).progress ∧ (s.runCalls cs).progress ≤ 1 ∧
    0 ≤ (s.runCalls cs).scanlinePhase ∧ (s.runCalls cs).scanlinePhase ≤ 1 := by
  induction cs generalizing s with
  | nil => exact h
  | cons c rest ih =>
    refine ih ?_
    cases c with
    | setProgress v =>
      exact ⟨clamp01_nonneg v, clamp01_le_one v, h.2.2.1, h.2.2.2⟩
    | setScanlinePhase v =>
      exact ⟨h.1, h.2.1, clamp01_nonneg v, clamp01_le_one v⟩
    | setMode v => exact h
    | stop => exact h

/-- C10: over any call sequence with arbitrary rational arguments, the
`uProgress` and `uScanlinePhase` values written by the draw loop always lie
in `[0,1]` (both setters clamp before storing), while `setMode` stores its
argument entirely unclamped. -/
theorem C10_uniform_clamping_and_raw_mode :
    (∀ cs : List GLCall,
      0 ≤ (GLPreloader.mk0.runCalls cs).frameUniforms.uProgress ∧
      (GLPreloader.mk0.runCalls cs).frameUniforms.uProgress ≤ 1 ∧
      0 ≤ (GLPreloader.mk0.runCalls cs).frameUniforms.uScanlinePhase ∧
      (GLPreloader.mk0.runCalls cs).frameUniforms.uScanlinePhase ≤ 1) ∧
    (∀ (s : GLPreloader) (v : ℚ),
      (s.setMode v).mode = v ∧
      (s.setProgress v).progress = clamp01 v ∧
      (s.setScanlinePhase v).scanlinePhase = clamp01 v) := by
  constructor
  · intro cs
    exact runCalls_bounds (by norm_num [GLPreloader.mk0]) cs
  · intro s v
    exact ⟨rfl, rfl, rfl⟩

/-- Counterexample for C7: the claim includes `stop` among the messages
with no observable pre-init effect, but a `stop` received before `init`
still runs `self.close()`, observably closing the worker context. -/
theorem C7_stop_before_init_counterexample :
    handleMessage WorkerState.mk0 WorkerMsg.stop ≠ WorkerState.mk0 ∧
    (handleMessage WorkerState.mk0 WorkerMsg.stop).closed = true ∧
    WorkerState.mk0.closed = false := by
  refine ⟨?_, rfl, rfl⟩
  intro h
  have hc : (handleMessage WorkerState.mk0 WorkerMsg.stop).closed =
      WorkerState.mk0.closed := by rw [h]
  simp [handleMessage, WorkerState.mk0] at hc

/-- C7 (amended): any sequence of `progress`, `scanlinePhase` or `mode`
messages received before `init` leaves the worker state completely
unchanged (the renderer reference is still null, so each command is
silently dropped and nothing throws); a pre-init `stop` likewise leaves
the renderer reference null but does close the worker context. -/
theorem C7_pre_init_messages_amended :
    (∀ msgs : List WorkerMsg, (∀ m ∈ msgs, m.isRendererForward = true) →
      msgs.foldl handleMessage WorkerState.mk0 = WorkerState.mk0) ∧
    (handleMessage WorkerState.mk0 WorkerMsg.stop).preloader = none ∧
    (handleMessage WorkerState.mk0 WorkerMsg.stop).closed = true := by
  refine ⟨?_, rfl, rfl⟩
  intro msgs hmsgs
  induction msgs with
  | nil => rfl
  | cons m rest ih =>
    have hm : m.isRendererForward = true := hmsgs m (List.mem_cons_self m rest)
    have hstep : handleMessage WorkerState.mk0 m = WorkerState.mk0 := by
      cases m <;> simp_all [WorkerMsg.isRendererForward, handleMessage,
        WorkerState.mk0]
    rw [List.foldl_cons, hstep]
    exact ih fun m' hm' => hmsgs m' (List.mem_cons_of_mem m hm')

/-- Witness for C7 (amended) at a concrete pre-init message sequence. -/
theorem C7_pre_init_messages_amended_witness :
    (∀ m ∈ [WorkerMsg.progress 5, WorkerMsg.mode 2,
        WorkerMsg.scanlinePhase (1 / 2)], m.isRendererForward = true) ∧
    [WorkerMsg.progress 5, WorkerMsg.mode 2,
        WorkerMsg.scanlinePhase (1 / 2)].foldl handleMessage WorkerState.mk0 =
      WorkerState.mk0 :=
  ⟨by intro m hm; fin_cases hm <;> rfl,
    C7_pre_init_messages_amended.1
      [WorkerMsg.progress 5, WorkerMsg.mode 2, WorkerMsg.scanlinePhase (1 / 2)]
      (by intro m hm; fin_cases hm <;> rfl)⟩

theorem onUnlock_target (s : ProgressController) :
    (onUnlock s).targetProgress = 1 := by
  cases hid : s.rafId <;>
    simp [onUnlock, ProgressController.setTargetProgress,
      ProgressController.startProgressSmoothing, clamp01, hid]

/-- C6: `onUnlock` sets the controller's target to 1; whatever visual
values the polling loop observes, it fires `finish()` (returns `some n`)
only at a tick whose visual value exceeds `0.995`, never at an earlier
tick at or below the threshold, and it does fire by the first in-budget
tick whose value crosses the threshold. -/
theorem C6_finish_only_after_threshold
    (s : ProgressController) (visuals : ℕ → ℚ) (fuel start n : ℕ) :
    (onUnlock s).targetProgress = 1 ∧
    (waitForSceneReady visuals fuel start = some n →
      readyThreshold < visuals n ∧ start ≤ n ∧
      ∀ m, start ≤ m → m < n → visuals m ≤ readyThreshold) ∧
    (start ≤ n → n < start + fuel → readyThreshold < visuals n →
      ∃ k, waitForSceneReady visuals fuel start = some k ∧ k ≤ n) := by
  refine ⟨onUnlock_target s, ?_, ?_⟩
  · induction fuel generalizing start with
    | zero => intro h; simp [waitForSceneReady] at h
    | succ fuel ih =>
      intro h
      rw [waitForSceneReady] at h
      by_cases hc : readyThreshold < visuals start
      · rw [if_pos hc] at h
        obtain rfl : start = n := by injection h
        exact ⟨hc, le_rfl, fun m hm1 hm2 => absurd (lt_of_le_of_lt hm1 hm2) (lt_irrefl _)⟩
      · rw [if_neg hc] at h
        obtain ⟨h1, h2, h3⟩ := ih (start + 1) h
        refine ⟨h1, le_trans (Nat.le_succ start) h2, ?_⟩
        intro m hm1 hm2
        rcases Nat.eq_or_lt_of_le hm1 with rfl | hlt
        · exact le_of_not_lt hc
        · exact h3 m hlt hm2
  · induction fuel generalizing start with
    | zero =>
      intro h1 h2 _
      omega
    | succ fuel ih =>
      intro h1 h2 h3
      rw [waitForSceneReady]
      by_cases hc : readyThreshold < visuals start
      · exact ⟨start, by rw [if_pos hc], h1⟩
      · rw [if_neg hc]
        have hne : start ≠ n := fun he => hc (he ▸ h3)
        exact ih (start + 1) (by omega) (by omega) h3

/-- Witness for C6: visual values stuck at `1/2` for ticks 0..2 and at 1
from tick 3 on; the loop fires exactly at tick 3. -/
theorem C6_finish_only_after_threshold_witness :
    (onUnlock ProgressController.mk0).targetProgress = 1 ∧
    (readyThreshold < (fun k => if k < 3 then (1 : ℚ) / 2 else 1) 3 ∧ 0 ≤ 3 ∧
      ∀ m, 0 ≤ m → m < 3 →
        (fun k => if k < 3 then (1 : ℚ) / 2 else 1) m ≤ readyThreshold) ∧
    ∃ k, waitForSceneReady (fun k => if k < 3 then (1 : ℚ) / 2 else 1) 10 0 =
      some k ∧ k ≤ 3 := by
  have h := C6_finish_only_after_threshold ProgressController.mk0
    (fun k => if k < 3 then (1 : ℚ) / 2 else 1) 10 0 3
  refine ⟨h.1, h.2.1 ?_, h.2.2 (by omega) (by omega) ?_⟩ <;>
    simp [waitForSceneReady, readyThreshold] <;> norm_num

theorem fireFrame_le_target {s : ProgressController}
    (h : s.visualProgress ≤ s.targetProgress) :
    (s.fireFrame).visualProgress ≤ (s.fireFrame).targetProgress ∧
    (s.fireFrame).targetProgress = s.targetProgress := by
  cases hid : s.rafId with
  | none => rw [fireFrame_none hid]; exact ⟨h, rfl⟩
  | some id =>
    unfold ProgressController.fireFrame ProgressController.tickBody
    rw [hid]
    simp only
    split
    · exact ⟨(smoothStep_between_left h).2, rfl⟩
    · exact ⟨le_rfl, rfl⟩

theorem iterate_visual_le_target {s : ProgressController}
    (h : s.visualProgress ≤ s.targetProgress) (n : ℕ) :
    (ProgressController.fireFrame^[n] s).visualProgress ≤ s.targetProgress ∧
    (ProgressController.fireFrame^[n] s).targetProgress = s.targetProgress := by
  induction n with
  | zero => exact ⟨h, rfl⟩
  | succ n ih =>
    rw [Function.iterate_succ_apply']
    have hle : (ProgressController.fireFrame^[n] s).visualProgress ≤
        (ProgressController.fireFrame^[n] s).targetProgress := ih.2 ▸ ih.1
    obtain ⟨h1, h2⟩ := fireFrame_le_target hle
    have h2' : (ProgressController.fireFrame^[n] s).fireFrame.targetProgress =
        s.targetProgress := by rw [h2, ih.2]
    exact ⟨by rw [← h2']; exact h1, h2'⟩

theorem waitForSceneReady_stuck {visuals : ℕ → ℚ}
    (h : ∀ n, ¬ readyThreshold < visuals n) (fuel start : ℕ) :
    waitForSceneReady visuals fuel start = none := by
  induction fuel generalizing start with
  | zero => rfl
  | succ fuel ih =>
    rw [waitForSceneReady, if_neg (h start)]
    exact ih (start + 1)

/-- C1, evaluated at the failing interleaving: `onUnlock` fires
(`setTargetProgress(1)`), then the pending `ore-three` import of
`startSceneLoading` resolves and calls `setTargetProgress(0.3)`, then the
next awaited step (the hero-layer import) rejects. `startSceneLoading`
has no catch, so nothing drives the target back to 1: the target stays at
`0.3`, the visual value never exceeds `0.3`, and the `waitForSceneReady`
polling loop started by `onUnlock` returns `none` for every tick budget —
it polls forever and `finish()` is never called. -/
theorem C1_scene_load_failure_starves_unlock_polling :
    (ProgressController.mk0.run
      [PCEvent.setTarget 1, PCEvent.setTarget (3 / 10)]).targetProgress = 3 / 10 ∧
    (ProgressController.mk0.run
      [PCEvent.setTarget 1, PCEvent.setTarget (3 / 10)]).targetProgress ≠ 1 ∧
    ∀ fuel start : ℕ,
      waitForSceneReady
        (fun n => (ProgressController.fireFrame^[n]
          (ProgressController.mk0.run
            [PCEvent.setTarget 1, PCEvent.setTarget (3 / 10)])).getCurrentProgress)
        fuel start = none := by
  have htarget : (ProgressController.mk0.run
      [PCEvent.setTarget 1, PCEvent.setTarget (3 / 10)]).targetProgress = 3 / 10 := by
    norm_num [ProgressController.run, ProgressController.applyEvent,
      ProgressController.setTargetProgress,
      ProgressController.startProgressSmoothing, ProgressController.mk0,
      clamp01, List.foldl]
  have hvisual : (ProgressController.mk0.run
      [PCEvent.setTarget 1, PCEvent.setTarget (3 / 10)]).visualProgress = 0 := by
    norm_num [ProgressController.run, ProgressController.applyEvent,
      ProgressController.setTargetProgress,
      ProgressController.startProgressSmoothing, ProgressController.mk0,
      clamp01, List.foldl]
  refine ⟨htarget, by rw [htarget]; norm_num, ?_⟩
  intro fuel start
  apply waitForSceneReady_stuck
  intro n
  have hb := (iterate_visual_le_target
    (s := ProgressController.mk0.run
      [PCEvent.setTarget 1, PCEvent.setTarget (3 / 10)])
    (by rw [hvisual, htarget]; norm_num) n).1
  rw [htarget] at hb
  rw [not_lt, ProgressController.getCurrentProgress, readyThreshold]
  calc (ProgressController.fireFrame^[n]
      (ProgressController.mk0.run
        [PCEvent.setTarget 1, PCEvent.setTarget (3 / 10)])).visualProgress ≤
      3 / 10 := hb
  _ ≤ 199 / 200 := by norm_num

end La6Lazy
